import Mathlib

/-!
Shallow embedding of the mail-merge / OTP server (the server.js variants,
the merged server, mail.js, and mail_sender.js) together with theorems
settling the specification's claims about the retry/backoff policy, the
bulk-send loop, the Name substitution, the OTP store and the image-URL
normalizer.  Definitions come first, translated from the source; the
theorems follow.
-/

namespace MailServer

/-! ### Definitions: fetchWithBackoff -/

/-- Outcome of one fetch attempt as seen by fetchWithBackoff: either an
HTTP response (status code plus the JSON text of its body) or a
network-level failure that makes fetch reject. -/
inductive FetchOutcome where
  | response (status : Nat) (body : String)
  | netErr (msg : String)

/-- Final outcome of fetchWithBackoff: a resolved body or a thrown error
message. -/
inductive FetchResult where
  | ok (body : String)
  | err (msg : String)
  deriving DecidableEq

/-- Trace of one fetchWithBackoff run: final result, number of fetch
attempts performed, and the backoff delays awaited between attempts. -/
structure BackoffTrace where
  result : FetchResult
  attempts : Nat
  delays : List Nat
  deriving DecidableEq

/-- response.ok in node-fetch: status in the interval from 200 up to 299. -/
def statusOk (s : Nat) : Bool := 200 ≤ s && s < 300

/-- The explicit retry test of fetchWithBackoff: status 429 or 5xx. -/
def retryableStatus (s : Nat) : Bool := s == 429 || (500 ≤ s && s < 600)

/-- The while loop of fetchWithBackoff.  fuel equals maxRetries - attempt,
the number of loop iterations still allowed, so structural recursion on
fuel mirrors the condition attempt < maxRetries.  A non-ok, non-retryable
response throws inside the try block; since that throw happens inside the
try, it is caught by the catch block of the same statement, which retries
unless attempt is at least maxRetries - 1 — hence the
maxRetries ≤ attempt + 1 tests below, exactly reproducing the source's
catch logic. -/
def fetchLoop (oracle : Nat → FetchOutcome) (maxRetries : Nat) :
    Nat → Nat → Nat → BackoffTrace
  | 0, _, _ => ⟨.err "Failed after max retries", 0, []⟩
  | fuel + 1, attempt, backoffTime =>
    match oracle attempt with
    | .response status body =>
      if statusOk status then ⟨.ok body, 1, []⟩
      else if retryableStatus status then
        let rest := fetchLoop oracle maxRetries fuel (attempt + 1) (backoffTime * 2)
        ⟨rest.result, rest.attempts + 1, backoffTime :: rest.delays⟩
      else if maxRetries ≤ attempt + 1 then ⟨.err body, 1, []⟩
      else
        let rest := fetchLoop oracle maxRetries fuel (attempt + 1) (backoffTime * 2)
        ⟨rest.result, rest.attempts + 1, backoffTime :: rest.delays⟩
    | .netErr msg =>
      if maxRetries ≤ attempt + 1 then ⟨.err msg, 1, []⟩
      else
        let rest := fetchLoop oracle maxRetries fuel (attempt + 1) (backoffTime * 2)
        ⟨rest.result, rest.attempts + 1, backoffTime :: rest.delays⟩

/-- fetchWithBackoff(url, payload, maxRetries), with maxRetries 5 at every
call site: attempt starts at 0 and backoffTime at 1000 ms. -/
def fetchWithBackoff (oracle : Nat → FetchOutcome) (maxRetries : Nat) :
    BackoffTrace :=
  fetchLoop oracle maxRetries maxRetries 0 1000

/-- A server that answers HTTP 400 to every request. -/
def alwaysBadRequest : Nat → FetchOutcome :=
  fun _ => .response 400 "bad request body"

/-! ### Definitions: OTP store and routes -/

/-- One OTP record: {otp, expiresAt}. -/
structure OtpRecord where
  otp : String
  expiresAt : Nat
  deriving DecidableEq

/-- The own-property names of Object.prototype.  Reading any of them on a
plain object yields an inherited function — a truthy value that is not an
OTP record.  The inherited proto accessor is handled separately in
storeGet and storeSet. -/
def objectProtoKeys : List String :=
  ["constructor", "hasOwnProperty", "isPrototypeOf", "propertyIsEnumerable",
   "toLocaleString", "toString", "valueOf", "__defineGetter__",
   "__defineSetter__", "__lookupGetter__", "__lookupSetter__"]

/-- The process-wide otpStore object literal, with JS object semantics:
own holds the own properties created by assignment (assignment never
creates an own property named __proto__); proto is the object's prototype
once it has been replaced by an OTP record through an assignment to
__proto__, and none while it is still Object.prototype. -/
structure OtpStore where
  own : String → Option OtpRecord
  proto : Option OtpRecord

/-- What a property read otpStore[key] yields: an OTP record object, or
some other JS value of which the route code observes only truthiness —
reading otp or expiresAt on a non-record gives undefined, so the expiry
comparison is false and the code comparison is a mismatch. -/
inductive JsLookup where
  | record (r : OtpRecord)
  | other (truthy : Bool)
  deriving DecidableEq

/-- otpStore[key] with prototype-chain semantics: a read of __proto__ goes
through the inherited accessor and returns the current prototype — the
truthy non-record Object.prototype while unreplaced; otherwise an own
property wins; a replaced prototype record exposes its otp and expiresAt
fields (truthy unless the empty string or zero); the remaining names
inherited from Object.prototype are truthy functions; everything else is
undefined, the falsy case. -/
def storeGet (st : OtpStore) (key : String) : JsLookup :=
  if key = "__proto__" then
    match st.proto with
    | some r => .record r
    | none => .other true
  else
    match st.own key with
    | some r => .record r
    | none =>
      match st.proto with
      | some r =>
        if key = "otp" then .other (r.otp != "")
        else if key = "expiresAt" then .other (r.expiresAt != 0)
        else .other (objectProtoKeys.contains key)
      | none => .other (objectProtoKeys.contains key)

def emptyStore : OtpStore := ⟨fun _ => none, none⟩

/-- otpStore[email] = rec.  Assignment to __proto__ invokes the inherited
setter: it replaces the prototype and creates no own property; any other
key becomes an own property. -/
def storeSet (st : OtpStore) (email : String) (rec : OtpRecord) : OtpStore :=
  if email = "__proto__" then ⟨st.own, some rec⟩
  else ⟨fun e => if e = email then some rec else st.own e, st.proto⟩

/-- delete otpStore[email]: removes the own property when there is one and
never touches the prototype; in particular delete on __proto__ — an
inherited accessor, not an own property — is a no-op on the store. -/
def storeDelete (st : OtpStore) (email : String) : OtpStore :=
  ⟨fun e => if e = email then none else st.own e, st.proto⟩

/-- An email that is neither __proto__ nor a property name inherited from
Object.prototype: the keys on which the store behaves as a plain map. -/
def inheritedKey (email : String) : Bool :=
  email == "__proto__" || objectProtoKeys.contains email

/-- The JSON reply of an OTP route, with its HTTP status. -/
structure OtpResponse where
  status : Nat
  success : Bool
  message : String
  deriving DecidableEq

/-- POST /verify-otp.  Missing (empty) email or otp gives the 400 guard;
otherwise the record lookup observes JS object semantics: undefined fails
the existence check ("not found"); a truthy non-record value — an
inherited function, the unreplaced Object.prototype behind __proto__, or a
field of a replaced prototype record — passes it, is never expired (the
comparison against its undefined expiresAt is false) and always mismatches
the non-empty code ("invalid"); a record is expired (and deleted),
mismatched (kept), or exactly matched (deleted, success).  now and
expiresAt are millisecond timestamps; Date.now() > record.expiresAt is
record.expiresAt < now. -/
def verifyOtp (st : OtpStore) (now : Nat) (email otp : String) :
    OtpResponse × OtpStore :=
  if email = "" || otp = "" then (⟨400, false, "Missing email or otp"⟩, st)
  else
    match storeGet st email with
    | .record record =>
      if record.expiresAt < now then
        (⟨200, false, "OTP expired. Please request a new one."⟩, storeDelete st email)
      else if record.otp ≠ otp then
        (⟨200, false, "Invalid OTP. Please try again."⟩, st)
      else (⟨200, true, "OTP verified"⟩, storeDelete st email)
    | .other true => (⟨200, false, "Invalid OTP. Please try again."⟩, st)
    | .other false => (⟨200, false, "OTP not found. Request a new code."⟩, st)

/-- POST /send-otp, merged-server variant.  code is the generated 6-digit
string, mailOk the transport outcome, auditConfigured whether the
document-store handle db is non-null, auditOk the outcome of the audit
write.  The store write happens before the try block; the audit write sits
inside its own inner try/catch, so neither audit parameter can influence
the response — which is exactly the claim under scrutiny. -/
def sendOtp (st : OtpStore) (now : Nat) (email code : String)
    (mailOk : Bool) (_auditConfigured _auditOk : Bool) : OtpResponse × OtpStore :=
  if email = "" then (⟨400, false, "Email required"⟩, st)
  else
    let st' := storeSet st email ⟨code, now + 5 * 60 * 1000⟩
    if mailOk then (⟨200, true, "OTP sent"⟩, st')
    else (⟨500, false, "Failed to send OTP"⟩, st')

/-- POST /send-otp, standalone mail.js variant.  Here the document-store
write (addDoc) is not wrapped in an inner try/catch: it runs inside the
route's outer try, after the mail is sent, so its failure falls through to
the outer catch and produces the 500 reply. -/
def sendOtpMailJs (st : OtpStore) (now : Nat) (email code : String)
    (mailOk auditOk : Bool) : OtpResponse × OtpStore :=
  if email = "" then (⟨400, false, "Email required"⟩, st)
  else
    let st' := storeSet st email ⟨code, now + 5 * 60 * 1000⟩
    if mailOk && auditOk then (⟨200, true, "OTP sent"⟩, st')
    else (⟨500, false, "Failed to send OTP"⟩, st')

/-- The 60-second cleanup interval iterates Object.keys — own properties
only — and deletes every record whose expiry has passed (expiresAt ≤ now);
the prototype is never touched. -/
def sweepOtp (st : OtpStore) (now : Nat) : OtpStore :=
  ⟨fun e =>
    match st.own e with
    | some rec => if rec.expiresAt ≤ now then none else some rec
    | none => none, st.proto⟩

/-- A concrete store holding one record, for the witnesses. -/
def storeU : OtpStore := storeSet emptyStore "u@x.com" ⟨"123456", 1000⟩

/-- Math.floor(100000 + Math.random() * 900000), the random draw modelled
as a rational in the unit interval. -/
def otpCodeInt (q : ℚ) : ℤ := ⌊(100000 : ℚ) + q * 900000⌋

def otpCodeNat (q : ℚ) : ℕ := (otpCodeInt q).toNat

/-- Number.prototype.toString for a natural number: base-10 digits, most
significant first. -/
def decimalStr (n : Nat) : String :=
  if n = 0 then "0" else String.mk ((Nat.digits 10 n).reverse.map Nat.digitChar)

/-- The .toString() applied to the generated code. -/
def otpCodeStr (q : ℚ) : String := decimalStr (otpCodeNat q)

/-! ### Definitions: Name substitution

html.replace(/\[Name\]/g, name): global, leftmost, non-overlapping
matching of the literal token, each occurrence replaced by the template
name after the ECMAScript GetSubstitution expansion of its dollar
patterns: two dollars give one, dollar-ampersand re-inserts the matched
token, dollar-backquote inserts the part of the subject before the match,
dollar-quote the part after it; anything else — including dollar-digit,
since the pattern has no capture groups — stays literal. -/

/-- The characters of the literal token. -/
def tokenChars : List Char := ['[', 'N', 'a', 'm', 'e', ']']

/-- The backquote character, written by code point. -/
def backquote : Char := Char.ofNat 96

/-- The single-quote character, written by code point. -/
def squote : Char := Char.ofNat 39

/-- GetSubstitution for this pattern: expand the replacement template
against the matched token, the part of the subject before the match and
the part after it. -/
def expandRepl (before after : List Char) (tmpl : List Char) : List Char :=
  match tmpl with
  | [] => []
  | c :: rest =>
    if c = '$' then
      match rest with
      | [] => ['$']
      | d :: rest2 =>
        if d = '$' then '$' :: expandRepl before after rest2
        else if d = '&' then tokenChars ++ expandRepl before after rest2
        else if d = backquote then before ++ expandRepl before after rest2
        else if d = squote then after ++ expandRepl before after rest2
        else '$' :: d :: expandRepl before after rest2
    else c :: expandRepl before after rest

/-- One replace pass over the subject, seen being the part of the subject
already scanned (what precedes the current position). -/
def substCharsGo (name seen l : List Char) : List Char :=
  match l with
  | '[' :: 'N' :: 'a' :: 'm' :: 'e' :: ']' :: rest =>
    expandRepl seen rest name ++ substCharsGo name (seen ++ tokenChars) rest
  | c :: rest => c :: substCharsGo name (seen ++ [c]) rest
  | [] => []

/-- html.replace(/\[Name\]/g, name) on character lists. -/
def substChars (name l : List Char) : List Char := substCharsGo name [] l

/-- html.replace(/\[Name\]/g, name) on strings. -/
def subst (name s : String) : String := String.mk (substChars name.data s.data)

/-- One CSV row, restricted to the columns the send loop reads: the
lower-case and capitalized spellings of the email and name columns.  A
missing column is none. -/
structure Row where
  email : Option String
  emailCap : Option String
  name : Option String
  nameCap : Option String

/-- JS truthiness of an optional string: undefined and the empty string
are falsy. -/
def strTruthy : Option String → Bool
  | none => false
  | some s => s != ""

/-- The JS expression a || b on optional strings. -/
def jsOrStr (a b : Option String) : Option String :=
  if strTruthy a then a else b

/-- r.email || r.Email followed by the loop's `if (!email) continue`
guard: some usable address, or none when the row is skipped. -/
def resolveEmail (r : Row) : Option String :=
  let e := jsOrStr r.email r.emailCap
  if strTruthy e then e else none

/-- r.name || r.Name || deflt. -/
def resolveName (r : Row) (deflt : String) : String :=
  match jsOrStr r.name r.nameCap with
  | some s => if s = "" then deflt else s
  | none => deflt

/-- Name resolution of /send-csv: default is the empty string. -/
def resolveNameCsv (r : Row) : String := resolveName r ""

/-- The accumulated results object of /send-csv: sent and failed counters,
failures as (email, error message), details as (email, status, error). -/
structure SendResults where
  sent : Nat
  failed : Nat
  failures : List (String × String)
  details : List (String × String × Option String)
  deriving DecidableEq

/-- The for-loop of /send-csv.  transport email personalizedHtml is none
on success and some message when sendMail throws; a failure is recorded
and the loop continues with the next recipient.  (The fixed inter-message
delay and the per-message copy of the attachment buffers do not touch the
counters and are not modelled.) -/
def sendCsvLoop (transport : String → String → Option String) (html : String) :
    List Row → SendResults
  | [] => ⟨0, 0, [], []⟩
  | r :: rest =>
    match resolveEmail r with
    | none => sendCsvLoop transport html rest
    | some email =>
      let personalizedHtml := subst (resolveNameCsv r) html
      let res := sendCsvLoop transport html rest
      match transport email personalizedHtml with
      | none =>
        ⟨res.sent + 1, res.failed, res.failures, (email, "sent", none) :: res.details⟩
      | some msg =>
        ⟨res.sent, res.failed + 1, (email, msg) :: res.failures,
          (email, "failed", some msg) :: res.details⟩

/-- The reply of /send-csv: HTTP status, error text of the 4xx guards, and
the summary of the 200 reply. -/
structure CsvResponse where
  status : Nat
  error : Option String
  summary : Option SendResults
  deriving DecidableEq

/-- POST /send-csv after the file upload: the missing subject/html guard
(missing fields modelled as empty strings), the empty-recipients guard,
then the send loop and the 200 reply carrying the summary.  The inline
logo/banner preparation concerns fields outside the rows and counters the
claims speak about and is not modelled. -/
def sendCsvEndpoint (subject html : String) (recipients : List Row)
    (transport : String → String → Option String) : CsvResponse :=
  if subject = "" || html = "" then ⟨400, some "Missing subject or HTML body.", none⟩
  else if recipients.isEmpty then ⟨400, some "No recipients found in CSV.", none⟩
  else ⟨200, none, some (sendCsvLoop transport html recipients)⟩

/-- A two-row recipient list for the witnesses: one valid row, one row
with no email column. -/
def demoRecipients : List Row :=
  [⟨some "a@x.com", none, some "A", none⟩, ⟨none, none, some "B", none⟩]

/-! ### Definitions: normalizeImageUrl

A model of new URL(url) restricted to what the function reads: hostname,
pathname and the id search parameter.  The pathname carries the percent
encoding of the path serializer on the ASCII code points, and reading a
search parameter applies the form decoding of URLSearchParams (plus to
space, percent sequences to their bytes).  Outside the model: the host
parser beyond ASCII lower-casing (percent decoding, IDNA, userinfo and
port splitting — the theorems confine hostnames to characters that
trigger none of these), multi-byte UTF-8 percent sequences, backslash
path separators and dot-segment collapsing (the theorems keep ids to the
unreserved characters and exclude the dot segments).  A string with no
scheme separator is a malformed case in which new URL throws and the
catch returns the input. -/

/-- Split at the first occurrence of the scheme separator, yielding the
scheme characters and the remainder. -/
def splitScheme : List Char → Option (List Char × List Char)
  | ':' :: '/' :: '/' :: rest => some ([], rest)
  | c :: rest => (splitScheme rest).map fun p => (c :: p.1, p.2)
  | [] => none

/-- The components of a parsed URL that normalizeImageUrl consumes. -/
structure UrlParts where
  scheme : String
  hostname : String
  pathname : String
  query : String
  deriving DecidableEq

/-- The value of an ASCII hex digit. -/
def hexVal (c : Char) : Option Nat :=
  if 48 ≤ c.toNat ∧ c.toNat ≤ 57 then some (c.toNat - 48)
  else if 65 ≤ c.toNat ∧ c.toNat ≤ 70 then some (c.toNat - 55)
  else if 97 ≤ c.toNat ∧ c.toNat ≤ 102 then some (c.toNat - 87)
  else none

/-- An upper-case hex digit. -/
def hexDigit (n : Nat) : Char :=
  if n < 10 then Char.ofNat (48 + n) else Char.ofNat (55 + n)

/-- The percent encoding of one byte. -/
def pctByte (n : Nat) : List Char := ['%', hexDigit (n / 16), hexDigit (n % 16)]

/-- Whether the path serializer leaves an ASCII code point bare: its
percent-encode set is the C0 controls and delete, space, the double
quote (34), hash (35), the angle brackets (60, 62), the question mark
(63), the backquote (96) and the curly braces (123, 125). -/
def pathPlainChar (c : Char) : Bool :=
  32 < c.toNat && c.toNat < 127 &&
    !(c.toNat == 34 || c.toNat == 35 || c.toNat == 60 || c.toNat == 62 ||
      c.toNat == 63 || c.toNat == 96 || c.toNat == 123 || c.toNat == 125)

/-- The pathname as URL.pathname reports it on ASCII input: code points
of the percent-encode set come out as their coded byte. -/
def pathEncode : List Char → List Char
  | [] => []
  | c :: rest => (if pathPlainChar c then [c] else pctByte c.toNat) ++ pathEncode rest

/-- The part of the URL parser after the scheme was found: lower-cased
hostname up to the first slash or question mark, percent-encoded pathname
up to the query (with the root path for an empty one), raw query text,
fragment stripped; none for an empty host. -/
def parseAfterScheme (scheme rest : List Char) : Option UrlParts :=
  if scheme.isEmpty then none
  else
    let noFrag := rest.takeWhile fun c => c != '#'
    let host := noFrag.takeWhile fun c => !(c == '/' || c == '?')
    let afterHost := noFrag.drop host.length
    if host.isEmpty then none
    else
      let path := afterHost.takeWhile fun c => c != '?'
      let query := afterHost.drop (path.length + 1)
      some ⟨String.mk scheme, String.mk (host.map Char.toLower),
        String.mk (if path.isEmpty then ['/'] else pathEncode path), String.mk query⟩

/-- new URL(url), reduced to the components normalizeImageUrl consumes;
none when the string has no scheme separator or no host, the modelled
malformed case in which new URL throws. -/
def parseUrl (url : String) : Option UrlParts :=
  match splitScheme url.data with
  | none => none
  | some (scheme, rest) => parseAfterScheme scheme rest

/-- URLSearchParams: split the query at every ampersand. -/
def splitAmp : List Char → List (List Char)
  | [] => [[]]
  | '&' :: rest => [] :: splitAmp rest
  | c :: rest =>
    match splitAmp rest with
    | [] => [[c]]
    | h :: t => (c :: h) :: t

/-- Split one key=value segment at its first equals sign; a segment with
no equals sign has the empty value. -/
def splitFirstEq : List Char → List Char × List Char
  | [] => ([], [])
  | '=' :: rest => ([], rest)
  | c :: rest =>
    let p := splitFirstEq rest
    (c :: p.1, p.2)

/-- The form decoding URLSearchParams applies to each key and value:
plus becomes space, and a percent sign followed by two hex digits
becomes the coded byte (bytes at and above 128, which UTF-8 groups into
multi-byte characters, do not arise in the theorems below, whose ids
avoid the percent sign altogether). -/
def formDecode : List Char → List Char
  | [] => []
  | '+' :: rest => ' ' :: formDecode rest
  | '%' :: h1 :: h2 :: rest =>
    match hexVal h1, hexVal h2 with
    | some a, some b => Char.ofNat (16 * a + b) :: formDecode rest
    | _, _ => '%' :: formDecode (h1 :: h2 :: rest)
  | c :: rest => c :: formDecode rest

/-- The key/value pairs of a query, form-decoded, empty segments
dropped. -/
def queryPairs (q : List Char) : List (List Char × List Char) :=
  (splitAmp q).filterMap fun seg =>
    if seg.isEmpty then none
    else
      let p := splitFirstEq seg
      some (formDecode p.1, formDecode p.2)

/-- searchParams.get(key): the value of the first pair with that key. -/
def getSearchParam (q key : List Char) : Option (List Char) :=
  ((queryPairs q).find? fun p => p.1 == key).map fun p => p.2

/-- The regex match of /\/d\/([^\/]+)/ on the pathname: find the first
slash-d-slash whose next character exists and is not a slash, and capture
the maximal run of non-slash characters after it; on a failed capture the
scan resumes one position further, as a regex engine would. -/
def matchDSeg : List Char → Option (List Char)
  | '/' :: 'd' :: '/' :: rest =>
    let cap := rest.takeWhile fun c => c != '/'
    if cap.isEmpty then matchDSeg ('d' :: '/' :: rest) else some cap
  | _ :: rest => matchDSeg rest
  | [] => none

/-- String.prototype.includes on character lists. -/
def containsSub : List Char → List Char → Bool
  | l, pat =>
    match l with
    | [] => pat.isEmpty
    | _ :: rest => pat.isPrefixOf l || containsSub rest pat

/-- normalizeImageUrl: for a hostname containing drive.google.com, take
the file id from the path segment pattern, else from the id query
parameter (the empty string being falsy), and rewrite to the direct-view
URL; otherwise, and for malformed URLs, return the input unchanged. -/
def normalizeImageUrl (url : String) : String :=
  match parseUrl url with
  | none => url
  | some u =>
    if containsSub u.hostname.data "drive.google.com".data then
      let idFromPath := matchDSeg u.pathname.data
      let fileId : Option (List Char) :=
        match idFromPath with
        | some cap => some cap
        | none =>
          match getSearchParam u.query.data ['i', 'd'] with
          | some v => if v.isEmpty then none else some v
          | none => none
      match fileId with
      | some i => "https://drive.google.com/uc?export=view&id=" ++ String.mk i
      | none => url
    else url

/-- The characters the theorems below admit in a file id: the unreserved
URL characters — ASCII digits (48-57), upper- and lower-case letters
(65-90, 97-122), hyphen (45), underscore (95), dot (46) and tilde
(126) — which percent encoding, form decoding and host parsing all leave
untouched. -/
def goodIdChar (c : Char) : Bool :=
  (48 ≤ c.toNat && c.toNat ≤ 57) || (65 ≤ c.toNat && c.toNat ≤ 90) ||
    (97 ≤ c.toNat && c.toNat ≤ 122) ||
    c.toNat == 45 || c.toNat == 95 || c.toNat == 46 || c.toNat == 126

/-- The hostname characters on which the host model is exact: the host
parser lower-cases ASCII letters, and characters outside this set could
trigger the percent decoding, IDNA mapping, userinfo or port splitting
that the model leaves out. -/
def plainHostChar (c : Char) : Bool :=
  c.isAlphanum || c == '-' || c == '.' || c == '_'

/-! ### Theorems: C1, fetchWithBackoff -/

/-- C1: the claim says a non-2xx status other than 429/5xx (such as 400)
makes fetchWithBackoff fail immediately without any retry.  The code
disagrees: the throw for such a status sits inside the try block, so the
catch of that very statement swallows it and retries.  Against a server
that always answers 400, fetchWithBackoff performs all 5 attempts and
waits out the full backoff schedule before surfacing the body. -/
theorem fetchWithBackoff_retries_status400 :
    fetchWithBackoff alwaysBadRequest 5 =
      ⟨.err "bad request body", 5, [1000, 2000, 4000, 8000]⟩ := by
  rfl

/-! ### Theorems: C4, C6, C8, C9, C10, the OTP flow -/

/-- C4 counterexample: for the email __proto__ the claimed contract fails
in the program.  Issuing to that address routes the record into the
store's prototype, where verification finds it but deletion cannot remove
it (delete only removes own properties), so the same code verifies
successfully twice — the single-use clause is violated; moreover on an
empty store a lookup of __proto__ yields the truthy Object.prototype, so
the claimed not-found reply is an invalid-code reply instead. -/
theorem verifyOtp_contract_counterexample :
    ((verifyOtp (sendOtp emptyStore 0 "__proto__" "123456" true true true).2
        100 "__proto__" "123456").1).success = true ∧
    ((verifyOtp (verifyOtp (sendOtp emptyStore 0 "__proto__" "123456" true true true).2
        100 "__proto__" "123456").2 100 "__proto__" "123456").1).success = true ∧
    (verifyOtp emptyStore 0 "__proto__" "111111").1 =
      ⟨200, false, "Invalid OTP. Please try again."⟩ := by
  decide

theorem inheritedKey_elim {email : String} (hk : inheritedKey email = false) :
    email ≠ "__proto__" ∧ objectProtoKeys.contains email = false := by
  rw [inheritedKey, Bool.or_eq_false_iff] at hk
  exact ⟨by simpa using hk.1, hk.2⟩

/-- On ordinary keys, over a store whose prototype is unreplaced, the
object behaves as a plain map. -/
theorem storeGet_ordinary (st : OtpStore) (email : String)
    (hk : inheritedKey email = false) (hp : st.proto = none) :
    storeGet st email =
      (match st.own email with
       | some r => JsLookup.record r
       | none => JsLookup.other false) := by
  obtain ⟨h1, h2⟩ := inheritedKey_elim hk
  have h3 : email ∉ objectProtoKeys := by simpa using h2
  unfold storeGet
  rw [if_neg h1, hp]
  cases st.own email <;> simp [h3]

/-- C4 (amended): the verify-otp contract holds for every ordinary email —
one that is neither __proto__ nor a property name inherited from
Object.prototype — over stores whose prototype is unreplaced (no issuance
for __proto__ has happened): absent record reports not found; expired
record reports expired and is deleted; mismatched code reports invalid and
leaves the store untouched; exact match deletes the record and succeeds,
so an immediate second verify with the same code reports not found.  At
the excluded keys the program misbehaves, as the counterexample shows. -/
theorem verifyOtp_contract (st : OtpStore) (now : Nat) (email code : String)
    (he : email ≠ "") (hc : code ≠ "")
    (hk : inheritedKey email = false) (hp : st.proto = none) :
    (st.own email = none →
      verifyOtp st now email code = (⟨200, false, "OTP not found. Request a new code."⟩, st)) ∧
    (∀ rec, st.own email = some rec → rec.expiresAt < now →
      (verifyOtp st now email code).1 = ⟨200, false, "OTP expired. Please request a new one."⟩ ∧
      (verifyOtp st now email code).2.own email = none ∧
      (∀ e, e ≠ email → (verifyOtp st now email code).2.own e = st.own e)) ∧
    (∀ rec, st.own email = some rec → ¬ rec.expiresAt < now → rec.otp ≠ code →
      verifyOtp st now email code = (⟨200, false, "Invalid OTP. Please try again."⟩, st)) ∧
    (∀ rec, st.own email = some rec → ¬ rec.expiresAt < now → rec.otp = code →
      (verifyOtp st now email code).1 = ⟨200, true, "OTP verified"⟩ ∧
      (verifyOtp st now email code).2.own email = none ∧
      (∀ now₂, (verifyOtp (verifyOtp st now email code).2 now₂ email code).1 =
        ⟨200, false, "OTP not found. Request a new code."⟩)) := by
  have hguard : (email = "" || code = "") = false := by
    simp [he, hc]
  have hget := storeGet_ordinary st email hk hp
  refine ⟨?_, ?_, ?_, ?_⟩
  · intro habs
    rw [habs] at hget
    simp [verifyOtp, hguard, hget]
  · intro rec hrec hexp
    rw [hrec] at hget
    simp [verifyOtp, hguard, hget, hexp, storeDelete]
    intro e hne
    simp [hne]
  · intro rec hrec hexp hmis
    rw [hrec] at hget
    simp [verifyOtp, hguard, hget, hexp, hmis]
  · intro rec hrec hexp hmatch
    rw [hrec] at hget
    refine ⟨?_, ?_, ?_⟩
    · simp [verifyOtp, hguard, hget, hexp, hmatch]
    · simp [verifyOtp, hguard, hget, hexp, hmatch, storeDelete]
    · intro now₂
      have h2own : (verifyOtp st now email code).2.own email = none := by
        simp [verifyOtp, hguard, hget, hexp, hmatch, storeDelete]
      have h2p : (verifyOtp st now email code).2.proto = none := by
        simp [verifyOtp, hguard, hget, hexp, hmatch, storeDelete, hp]
      generalize hst2 : (verifyOtp st now email code).2 = st2 at h2own h2p ⊢
      have hget2 := storeGet_ordinary st2 email hk h2p
      rw [h2own] at hget2
      simp [verifyOtp, hguard, hget2]

/-- Witness for C4: at the concrete store holding code 123456, a wrong
code reports invalid and keeps the record. -/
theorem verifyOtp_contract_witness :
    ("u@x.com" ≠ "" ∧ "999999" ≠ "" ∧ inheritedKey "u@x.com" = false ∧
      storeU.proto = none) ∧
    verifyOtp storeU 500 "u@x.com" "999999" =
      (⟨200, false, "Invalid OTP. Please try again."⟩, storeU) :=
  ⟨⟨by decide, by decide, by decide, by decide⟩,
    (verifyOtp_contract storeU 500 "u@x.com" "999999" (by decide) (by decide)
      (by decide) (by decide)).2.2.1
      ⟨"123456", 1000⟩ (by decide) (by decide) (by decide)⟩

/-- C6: the claim says every variant of the OTP sender replies success even
when the audit-log write fails.  The merged-server variant does (its audit
write has its own try/catch), but the standalone mail.js variant does not:
there the failed addDoc falls to the route's outer catch and the issuance
is answered with 500 "Failed to send OTP" although the mail was already
delivered. -/
theorem sendOtp_auditFailure_divergence :
    (sendOtpMailJs emptyStore 0 "u@x.com" "123456" true false).1 =
      ⟨500, false, "Failed to send OTP"⟩ ∧
    (sendOtp emptyStore 0 "u@x.com" "123456" true true false).1 =
      ⟨200, true, "OTP sent"⟩ := by
  constructor <;> rfl

/-- C8 counterexample: issuing for the email __proto__ does not create a
record at that key but replaces the store's prototype, which observably
changes lookups at every other key: here the otp key goes from undefined
to the truthy code string. -/
theorem otpStore_single_record_counterexample :
    storeGet (sendOtp emptyStore 0 "__proto__" "123456" true true true).2 "otp" ≠
      storeGet emptyStore "otp" := by
  decide

/-- C8 (amended): for every issuance at an email other than __proto__ the
new record unconditionally overwrites exactly that own key — every other
own key and the prototype are untouched — whereas an issuance at __proto__
instead replaces the prototype, observably changing lookups at other keys
(see the counterexample); verification and the sweep never write:
pointwise they keep or delete an own record and never touch the
prototype. -/
theorem otpStore_single_record (st : OtpStore) (now : Nat) (email code : String)
    (mailOk auditConfigured auditOk : Bool) (he : email ≠ "")
    (hnp : email ≠ "__proto__") :
    ((sendOtp st now email code mailOk auditConfigured auditOk).2.own email =
      some ⟨code, now + 5 * 60 * 1000⟩) ∧
    (∀ e, e ≠ email →
      (sendOtp st now email code mailOk auditConfigured auditOk).2.own e = st.own e) ∧
    ((sendOtp st now email code mailOk auditConfigured auditOk).2.proto = st.proto) ∧
    (∀ st' now' em ot e, (verifyOtp st' now' em ot).2.own e = st'.own e ∨
      (verifyOtp st' now' em ot).2.own e = none) ∧
    (∀ st' now' em ot, (verifyOtp st' now' em ot).2.proto = st'.proto) ∧
    (∀ st' now' e, (sweepOtp st' now').own e = st'.own e ∨
      (sweepOtp st' now').own e = none) ∧
    (∀ st' now', (sweepOtp st' now').proto = st'.proto) := by
  refine ⟨?_, ?_, ?_, ?_, ?_, ?_, ?_⟩
  · cases mailOk <;> simp [sendOtp, he, storeSet, hnp]
  · intro e hne
    cases mailOk <;> simp [sendOtp, he, storeSet, hnp, hne]
  · cases mailOk <;> simp [sendOtp, he, storeSet, hnp]
  · intro st' now' em ot e
    unfold verifyOtp
    by_cases hg : (em = "" || ot = "") = true
    · simp [hg]
    · simp only [Bool.not_eq_true] at hg
      simp only [hg]
      cases hlook : storeGet st' em with
      | record record =>
        by_cases hexp : record.expiresAt < now'
        · simp only [hexp, if_true]
          by_cases hee : e = em <;> simp [storeDelete, hee]
        · simp only [hexp, if_false]
          by_cases hmis : record.otp ≠ ot
          · simp [hmis]
          · simp only [hmis, if_false]
            by_cases hee : e = em <;> simp [storeDelete, hee]
      | other t =>
        cases t <;> simp
  · intro st' now' em ot
    unfold verifyOtp
    by_cases hg : (em = "" || ot = "") = true
    · simp [hg]
    · simp only [Bool.not_eq_true] at hg
      simp only [hg]
      cases hlook : storeGet st' em with
      | record record =>
        by_cases hexp : record.expiresAt < now'
        · simp [hexp, storeDelete]
        · by_cases hmis : record.otp ≠ ot <;> simp [hexp, hmis, storeDelete]
      | other t =>
        cases t <;> simp
  · intro st' now' e
    unfold sweepOtp
    match hrec : st'.own e with
    | none => simp [hrec]
    | some record =>
      by_cases hexp : record.expiresAt ≤ now' <;> simp [hrec, hexp]
  · intro st' now'
    rfl

/-- Witness for C8 at a concrete issuance. -/
theorem otpStore_single_record_witness :
    ("u@x.com" ≠ "" ∧ "u@x.com" ≠ "__proto__") ∧
    (sendOtp storeU 0 "u@x.com" "654321" true true true).2.own "u@x.com" =
      some ⟨"654321", 5 * 60 * 1000⟩ :=
  ⟨⟨by decide, by decide⟩,
    (otpStore_single_record storeU 0 "u@x.com" "654321" true true true
      (by decide) (by decide)).1⟩

/-- C10: POST /send-otp writes the record before attempting delivery, so
when the transport fails the endpoint replies 500 "Failed to send OTP"
while the fresh record stays active: a lookup of the email still finds the
record, and verifying the never-delivered code before expiry succeeds.
This holds at every non-empty email, including __proto__, where the record
lands in the store's prototype but is still found by the lookup. -/
theorem sendOtp_failure_keeps_record (st : OtpStore) (now now₂ : Nat)
    (email code : String) (auditConfigured auditOk : Bool)
    (he : email ≠ "") (hc : code ≠ "")
    (hnot : ¬ now + 5 * 60 * 1000 < now₂) :
    (sendOtp st now email code false auditConfigured auditOk).1 =
      ⟨500, false, "Failed to send OTP"⟩ ∧
    storeGet (sendOtp st now email code false auditConfigured auditOk).2 email =
      .record ⟨code, now + 5 * 60 * 1000⟩ ∧
    (verifyOtp (sendOtp st now email code false auditConfigured auditOk).2
        now₂ email code).1 = ⟨200, true, "OTP verified"⟩ := by
  have hguard : (email = "" || code = "") = false := by
    simp [he, hc]
  have hget : storeGet (sendOtp st now email code false auditConfigured auditOk).2 email =
      .record ⟨code, now + 5 * 60 * 1000⟩ := by
    by_cases hpp : email = "__proto__"
    · subst hpp
      simp [sendOtp, he, storeSet, storeGet]
    · simp [sendOtp, he, storeSet, storeGet, hpp]
  refine ⟨by simp [sendOtp, he], hget, ?_⟩
  simp [verifyOtp, hguard, hget, hnot]

/-- Witness for C10: a failed delivery at time 0 leaves a record that the
code verifies at time 1000. -/
theorem sendOtp_failure_keeps_record_witness :
    ("u@x.com" ≠ "" ∧ "123456" ≠ "" ∧ ¬ (0 + 5 * 60 * 1000 < 1000)) ∧
    (verifyOtp (sendOtp emptyStore 0 "u@x.com" "123456" false true true).2
        1000 "u@x.com" "123456").1 = ⟨200, true, "OTP verified"⟩ :=
  ⟨⟨by decide, by decide, by decide⟩,
    (sendOtp_failure_keeps_record emptyStore 0 1000 "u@x.com" "123456" true true
      (by decide) (by decide) (by decide)).2.2⟩

theorem digitChar_isDigit : ∀ d, d < 10 → (Nat.digitChar d).isDigit = true := by
  decide

/-- C9: for every value of the random source in the unit interval, the
generated OTP code is an integer in the closed range from 100000 to
999999 and its string form is exactly 6 ASCII decimal digits. -/
theorem otpCode_six_digits (q : ℚ) (h0 : 0 ≤ q) (h1 : q < 1) :
    100000 ≤ otpCodeNat q ∧ otpCodeNat q ≤ 999999 ∧
    (otpCodeStr q).length = 6 ∧ (otpCodeStr q).data.all Char.isDigit = true := by
  have hlow : (100000 : ℤ) ≤ otpCodeInt q := by
    rw [otpCodeInt, Int.le_floor]
    push_cast
    nlinarith
  have hhigh : otpCodeInt q < 1000000 := by
    rw [otpCodeInt, Int.floor_lt]
    push_cast
    nlinarith
  have hlowN : 100000 ≤ otpCodeNat q := by
    unfold otpCodeNat
    omega
  have hhighN : otpCodeNat q ≤ 999999 := by
    unfold otpCodeNat
    omega
  have hne : otpCodeNat q ≠ 0 := by omega
  have hlog : Nat.log 10 (otpCodeNat q) = 5 :=
    Nat.log_eq_of_pow_le_of_lt_pow (by norm_num; omega) (by norm_num; omega)
  have hlen : (Nat.digits 10 (otpCodeNat q)).length = 6 := by
    rw [Nat.digits_len 10 _ (by norm_num) hne, hlog]
  have hstr : otpCodeStr q =
      String.mk ((Nat.digits 10 (otpCodeNat q)).reverse.map Nat.digitChar) := by
    rw [otpCodeStr, decimalStr, if_neg hne]
  refine ⟨hlowN, hhighN, ?_, ?_⟩
  · rw [hstr]
    show ((Nat.digits 10 (otpCodeNat q)).reverse.map Nat.digitChar).length = 6
    rw [List.length_map, List.length_reverse, hlen]
  · rw [hstr]
    show ((Nat.digits 10 (otpCodeNat q)).reverse.map Nat.digitChar).all Char.isDigit = true
    rw [List.all_eq_true]
    intro c hc
    rcases List.mem_map.mp hc with ⟨d, hd, hdc⟩
    rw [← hdc]
    exact digitChar_isDigit d
      (Nat.digits_lt_base (by norm_num) (List.mem_reverse.mp hd))

/-- Witness for C9 at the draw one half. -/
theorem otpCode_six_digits_witness :
    ((0 : ℚ) ≤ 1/2 ∧ (1/2 : ℚ) < 1) ∧ 100000 ≤ otpCodeNat (1/2) ∧
      (otpCodeStr (1/2)).length = 6 :=
  ⟨⟨by norm_num, by norm_num⟩,
    (otpCode_six_digits (1/2) (by norm_num) (by norm_num)).1,
    (otpCode_six_digits (1/2) (by norm_num) (by norm_num)).2.2.1⟩


/-! ### Theorems: C5, the Name substitution -/

/-- The dollar patterns are live in the model as in the program: a name
of dollar-ampersand re-inserts the matched token, so the replace call
leaves the text unchanged instead of inserting the two characters
literally. -/
theorem subst_dollar_amp : subst "$&" "x[Name]" = "x[Name]" := by decide

/-! ### Theorems: C2 and C3, the /send-csv bulk loop -/

/-- With a transport that fails on every message, the loop walks the whole
recipient list, counts every resolvable email as failed, and records one
failure entry per such row, in order. -/
theorem sendCsvLoop_allFail (err : String → String) (html : String) :
    ∀ recipients : List Row,
      sendCsvLoop (fun e _ => some (err e)) html recipients =
        ⟨0, (recipients.filterMap resolveEmail).length,
          (recipients.filterMap resolveEmail).map (fun e => (e, err e)),
          (recipients.filterMap resolveEmail).map (fun e => (e, "failed", some (err e)))⟩
  | [] => rfl
  | r :: rest => by
    have ih := sendCsvLoop_allFail err html rest
    cases h : resolveEmail r <;>
      simp [sendCsvLoop, h, ih, List.filterMap_cons]

/-- C2: one recipient's failure never aborts the batch.  With a transport
that always fails, the endpoint still replies HTTP 200 and its summary
reports zero sent, every valid-email row failed, and one
(email, error message) failure entry per valid-email row. -/
theorem sendCsv_allFail_summary (subject html : String) (recipients : List Row)
    (err : String → String) (hs : subject ≠ "") (hh : html ≠ "")
    (hr : recipients ≠ []) :
    (sendCsvEndpoint subject html recipients (fun e _ => some (err e))).status = 200 ∧
    (sendCsvEndpoint subject html recipients (fun e _ => some (err e))).summary =
      some ⟨0, (recipients.filterMap resolveEmail).length,
        (recipients.filterMap resolveEmail).map (fun e => (e, err e)),
        (recipients.filterMap resolveEmail).map (fun e => (e, "failed", some (err e)))⟩ := by
  have hg : (subject = "" || html = "") = false := by simp [hs, hh]
  have hre : recipients.isEmpty = false := by
    simp [List.isEmpty_iff, hr]
  constructor <;> simp [sendCsvEndpoint, hg, hre, sendCsvLoop_allFail err html recipients]

/-- Witness for C2 at two concrete rows, one of them without an email. -/
theorem sendCsv_allFail_summary_witness :
    ("Hi" ≠ "" ∧ "Hello [Name]" ≠ "" ∧ demoRecipients ≠ []) ∧
    (sendCsvEndpoint "Hi" "Hello [Name]" demoRecipients
        (fun _ _ => some "transport down")).status = 200 :=
  ⟨⟨by decide, by decide, by simp [demoRecipients]⟩,
    (sendCsv_allFail_summary "Hi" "Hello [Name]" demoRecipients
      (fun _ => "transport down") (by decide) (by decide)
      (by simp [demoRecipients])).1⟩

/-- C3: for every transport behaviour and recipient list, sent plus failed
equals the number of rows with a non-empty email under either spelling of
the column; rows without one are counted in neither. -/
theorem sendCsv_sent_add_failed (transport : String → String → Option String)
    (html : String) : ∀ recipients : List Row,
    (sendCsvLoop transport html recipients).sent +
      (sendCsvLoop transport html recipients).failed =
      recipients.countP (fun r => (resolveEmail r).isSome)
  | [] => rfl
  | r :: rest => by
    have ih := sendCsv_sent_add_failed transport html rest
    cases h : resolveEmail r
    · simp [sendCsvLoop, h, ih, List.countP_cons, h]
    · rename_i email
      cases ht : transport email (subst (resolveNameCsv r) html) <;>
        simp [sendCsvLoop, h, ht, List.countP_cons] <;> omega

/-! ### Theorems: C7, normalizeImageUrl -/

theorem takeWhile_eq_self_of_all {p : Char → Bool} :
    ∀ l : List Char, (∀ a ∈ l, p a = true) → l.takeWhile p = l
  | [], _ => rfl
  | c :: rest, h => by
    rw [List.takeWhile_cons_of_pos (h c (by simp)),
      takeWhile_eq_self_of_all rest (fun a ha => h a (by simp [ha]))]

theorem all_append {p : Char → Bool} {l₁ l₂ : List Char}
    (h₁ : ∀ a ∈ l₁, p a = true) (h₂ : ∀ a ∈ l₂, p a = true) :
    ∀ a ∈ l₁ ++ l₂, p a = true := by
  intro a ha
  rcases List.mem_append.mp ha with h | h
  exacts [h₁ a h, h₂ a h]

theorem all_cons {p : Char → Bool} {c : Char} {l : List Char}
    (hc : p c = true) (h : ∀ a ∈ l, p a = true) :
    ∀ a ∈ c :: l, p a = true := by
  intro a ha
  rcases List.mem_cons.mp ha with h' | h'
  · rw [h']; exact hc
  · exact h a h'

theorem takeWhile_stop (p : Char → Bool) (l₁ : List Char) (c : Char) (l₂ : List Char)
    (h₁ : ∀ a ∈ l₁, p a = true) (hc : p c = false) :
    (l₁ ++ c :: l₂).takeWhile p = l₁ := by
  rw [List.takeWhile_append_of_pos h₁, List.takeWhile_cons_of_neg (by simp [hc]),
    List.append_nil]

theorem drop_prefix_len (l₁ l₂ : List Char) (n : Nat) (h : l₁.length = n) :
    (l₁ ++ l₂).drop n = l₂ :=
  List.drop_left' h

theorem goodId_ne_char (c d : Char) (h : goodIdChar c = true)
    (hd : goodIdChar d = false) : (c != d) = true := by
  rw [bne_iff_ne]
  intro hcd
  rw [hcd, hd] at h
  exact Bool.noConfusion h

theorem goodId_pathPlain (c : Char) (h : goodIdChar c = true) :
    pathPlainChar c = true := by
  simp only [goodIdChar, Bool.or_eq_true, Bool.and_eq_true, decide_eq_true_eq,
    beq_iff_eq] at h
  rw [pathPlainChar]
  simp only [Bool.and_eq_true, Bool.not_eq_true', Bool.or_eq_false_iff,
    decide_eq_true_eq, beq_eq_false_iff_ne, ne_eq]
  omega

theorem goodId_formPlain (c : Char) (h : goodIdChar c = true) :
    ((c != '+') && (c != '%')) = true := by
  simp only [goodIdChar, Bool.or_eq_true, Bool.and_eq_true, decide_eq_true_eq,
    beq_iff_eq] at h
  have h1 : ¬ c = '+' := fun hc => by subst hc; revert h; decide
  have h2 : ¬ c = '%' := fun hc => by subst hc; revert h; decide
  simp [bne_iff_ne, h1, h2]

theorem pathEncode_plain : ∀ l : List Char, (∀ c ∈ l, pathPlainChar c = true) →
    pathEncode l = l
  | [], _ => rfl
  | c :: rest, h => by
    show (if pathPlainChar c then [c] else pctByte c.toNat) ++ pathEncode rest = c :: rest
    rw [h c (by simp), if_pos rfl,
      pathEncode_plain rest (fun a ha => h a (by simp [ha]))]
    rfl

theorem formDecode_cons_plain (c : Char) (rest : List Char)
    (hplus : (c != '+') = true) (hpct : (c != '%') = true) :
    formDecode (c :: rest) = c :: formDecode rest := by
  rw [formDecode.eq_def]
  split
  · rename_i heq
    simp at heq
  · rename_i rest' heq
    injection heq with h1 h2
    rw [h1] at hplus
    simp at hplus
  · rename_i d1 d2 rest' heq
    injection heq with h1 h2
    rw [h1] at hpct
    simp at hpct
  · rename_i c' rest' hno heq
    injection heq with h1 h2
    subst h1
    subst h2
    rfl

theorem formDecode_eq_self : ∀ l : List Char,
    (∀ c ∈ l, ((c != '+') && (c != '%')) = true) → formDecode l = l
  | [], _ => rfl
  | c :: rest, h => by
    have hc := h c (by simp)
    rw [Bool.and_eq_true] at hc
    rw [formDecode_cons_plain c rest hc.1 hc.2,
      formDecode_eq_self rest (fun a ha => h a (by simp [ha]))]

theorem splitScheme_cons_of_ne (c : Char) (rest : List Char) (hc : ¬ c = ':') :
    splitScheme (c :: rest) = (splitScheme rest).map fun p => (c :: p.1, p.2) := by
  rw [splitScheme.eq_def]
  split
  · rename_i rest' heq
    injection heq with h1 h2
    exact absurd h1 hc
  · rename_i c' rest' hno heq
    injection heq with h1 h2
    subst h1
    subst h2
    rfl
  · rename_i heq
    simp at heq

theorem splitScheme_none_of_no_colon : ∀ l : List Char, l.contains ':' = false →
    splitScheme l = none
  | [], _ => rfl
  | c :: rest, h => by
    rw [List.contains_cons, Bool.or_eq_false_iff] at h
    have hc0 : ¬ ':' = c := by simpa using h.1
    rw [splitScheme_cons_of_ne c rest (fun hcc => hc0 hcc.symm),
      splitScheme_none_of_no_colon rest h.2]
    rfl

theorem splitScheme_https (l : List Char) :
    splitScheme ("https://".data ++ l) = some ("https".data, l) := rfl

theorem parseUrl_eq {url : String} {scheme rest : List Char}
    (h : splitScheme url.data = some (scheme, rest)) :
    parseUrl url = parseAfterScheme scheme rest := by
  unfold parseUrl
  rw [h]

/-- Evaluation of parseAfterScheme from the values of its pieces. -/
theorem parseAfterScheme_eq (scheme rest noFrag host tail path pathOut query : List Char)
    (hs : scheme.isEmpty = false)
    (hnf : rest.takeWhile (fun c => c != '#') = noFrag)
    (hh : noFrag.takeWhile (fun c => !(c == '/' || c == '?')) = host)
    (hhne : host.isEmpty = false)
    (hdrop : noFrag.drop host.length = tail)
    (hp : tail.takeWhile (fun c => c != '?') = path)
    (hpe : (if path.isEmpty then ['/'] else pathEncode path) = pathOut)
    (hq : tail.drop (path.length + 1) = query) :
    parseAfterScheme scheme rest =
      some ⟨String.mk scheme, String.mk (host.map Char.toLower), String.mk pathOut,
        String.mk query⟩ := by
  unfold parseAfterScheme
  simp only [hnf, hh, hhne, hdrop, hp, hpe, hq, hs, Bool.false_eq_true, if_false]

theorem matchDSeg_capture (idl rest : List Char) (hne : idl.isEmpty = false)
    (hid : ∀ c ∈ idl, (c != '/') = true) :
    matchDSeg ('/' :: 'd' :: '/' :: (idl ++ '/' :: rest)) = some idl := by
  have hcap : (idl ++ '/' :: rest).takeWhile (fun c => c != '/') = idl :=
    takeWhile_stop _ idl '/' rest hid (by decide)
  rw [matchDSeg.eq_def]
  simp only [hcap]
  rw [if_neg (by simp [hne])]

theorem normalize_path_case (url : String) (u : UrlParts) (idl : List Char)
    (hp : parseUrl url = some u)
    (hhost : containsSub u.hostname.data "drive.google.com".data = true)
    (hm : matchDSeg u.pathname.data = some idl) :
    normalizeImageUrl url =
      "https://drive.google.com/uc?export=view&id=" ++ String.mk idl := by
  unfold normalizeImageUrl
  rw [hp]
  simp only [hhost, if_true, hm]

theorem normalize_query_case (url : String) (u : UrlParts) (idl : List Char)
    (hp : parseUrl url = some u)
    (hhost : containsSub u.hostname.data "drive.google.com".data = true)
    (hm : matchDSeg u.pathname.data = none)
    (hq : getSearchParam u.query.data ['i', 'd'] = some idl)
    (hne : idl.isEmpty = false) :
    normalizeImageUrl url =
      "https://drive.google.com/uc?export=view&id=" ++ String.mk idl := by
  unfold normalizeImageUrl
  rw [hp]
  simp only [hhost, if_true, hm, hq, hne, Bool.false_eq_true, if_false]

theorem normalize_unrecognized (url : String) (u : UrlParts)
    (hp : parseUrl url = some u)
    (hhost : containsSub u.hostname.data "drive.google.com".data = false) :
    normalizeImageUrl url = url := by
  unfold normalizeImageUrl
  rw [hp]
  simp only [hhost, Bool.false_eq_true, if_false]

theorem normalize_malformed (url : String) (hp : parseUrl url = none) :
    normalizeImageUrl url = url := by
  unfold normalizeImageUrl
  rw [hp]

theorem splitAmp_cons_of_ne (c : Char) (rest : List Char) (hc : (c != '&') = true) :
    splitAmp (c :: rest) =
      match splitAmp rest with
      | [] => [[c]]
      | h :: t => (c :: h) :: t := by
  rw [splitAmp.eq_def]
  split
  · rename_i heq
    simp at heq
  · rename_i rest' heq
    injection heq with h1 h2
    rw [h1] at hc
    simp at hc
  · rename_i c' rest' hno heq
    injection heq with h1 h2
    subst h1
    subst h2
    rfl

theorem splitAmp_no_amp : ∀ l : List Char, (∀ c ∈ l, (c != '&') = true) →
    splitAmp l = [l]
  | [], _ => rfl
  | c :: rest, h => by
    rw [splitAmp_cons_of_ne c rest (h c (by simp)),
      splitAmp_no_amp rest (fun a ha => h a (by simp [ha]))]

theorem splitAmp_append (A B : List Char) (hA : ∀ c ∈ A, (c != '&') = true) :
    splitAmp (A ++ '&' :: B) = A :: splitAmp B := by
  induction A with
  | nil => rfl
  | cons c A' ih =>
    rw [List.cons_append, splitAmp_cons_of_ne c (A' ++ '&' :: B) (hA c (by simp)),
      ih (fun a ha => hA a (by simp [ha]))]

theorem getParam_id_only (idl : List Char) (h : ∀ c ∈ idl, (c != '&') = true) :
    getSearchParam ('i' :: 'd' :: '=' :: idl) ['i', 'd'] = some (formDecode idl) := by
  have hs : splitAmp ('i' :: 'd' :: '=' :: idl) = ['i' :: 'd' :: '=' :: idl] :=
    splitAmp_no_amp _ (all_cons (by decide) (all_cons (by decide)
      (all_cons (by decide) h)))
  unfold getSearchParam queryPairs
  rw [hs]
  rfl

theorem getParam_export_id (idl : List Char) (h : ∀ c ∈ idl, (c != '&') = true) :
    getSearchParam ("export=download".data ++ '&' :: 'i' :: 'd' :: '=' :: idl)
      ['i', 'd'] = some (formDecode idl) := by
  have hs : splitAmp ("export=download".data ++ '&' :: 'i' :: 'd' :: '=' :: idl) =
      "export=download".data :: splitAmp ('i' :: 'd' :: '=' :: idl) :=
    splitAmp_append _ _ (by decide)
  have hs2 : splitAmp ('i' :: 'd' :: '=' :: idl) = ['i' :: 'd' :: '=' :: idl] :=
    splitAmp_no_amp _ (all_cons (by decide) (all_cons (by decide)
      (all_cons (by decide) h)))
  unfold getSearchParam queryPairs
  rw [hs, hs2]
  rfl

/-- The /file/d/(id)/view share link resolves to the direct-view URL. -/
theorem normalize_pattern1 (id : String) (hne : id.data.isEmpty = false)
    (hgood : ∀ c ∈ id.data, goodIdChar c = true) :
    normalizeImageUrl ("https://drive.google.com/file/d/" ++ id ++ "/view") =
      "https://drive.google.com/uc?export=view&id=" ++ id := by
  have hsplit : splitScheme ("https://drive.google.com/file/d/" ++ id ++ "/view").data =
      some ("https".data, "drive.google.com/file/d/".data ++ (id.data ++ "/view".data)) :=
    splitScheme_https _
  have hnf : ("drive.google.com/file/d/".data ++ (id.data ++ "/view".data)).takeWhile
      (fun c => c != '#') =
      "drive.google.com/file/d/".data ++ (id.data ++ "/view".data) :=
    takeWhile_eq_self_of_all _ (all_append (by decide)
      (all_append (fun c hc => goodId_ne_char c '#' (hgood c hc) (by decide))
        (by decide)))
  have hh : ("drive.google.com/file/d/".data ++ (id.data ++ "/view".data)).takeWhile
      (fun c => !(c == '/' || c == '?')) = "drive.google.com".data :=
    takeWhile_stop _ "drive.google.com".data '/'
      ("file/d/".data ++ (id.data ++ "/view".data)) (by decide) (by decide)
  have hdrop : ("drive.google.com/file/d/".data ++ (id.data ++ "/view".data)).drop
      ("drive.google.com".data).length =
      '/' :: ("file/d/".data ++ (id.data ++ "/view".data)) :=
    List.drop_left "drive.google.com".data
      ('/' :: ("file/d/".data ++ (id.data ++ "/view".data)))
  have hp : ('/' :: ("file/d/".data ++ (id.data ++ "/view".data))).takeWhile
      (fun c => c != '?') = '/' :: ("file/d/".data ++ (id.data ++ "/view".data)) :=
    takeWhile_eq_self_of_all _ (all_cons (by decide) (all_append (by decide)
      (all_append (fun c hc => goodId_ne_char c '?' (hgood c hc) (by decide))
        (by decide))))
  have hpe : (if ('/' :: ("file/d/".data ++ (id.data ++ "/view".data))).isEmpty
      then ['/']
      else pathEncode ('/' :: ("file/d/".data ++ (id.data ++ "/view".data)))) =
      '/' :: ("file/d/".data ++ (id.data ++ "/view".data)) := by
    show pathEncode ('/' :: ("file/d/".data ++ (id.data ++ "/view".data))) =
      '/' :: ("file/d/".data ++ (id.data ++ "/view".data))
    exact pathEncode_plain _ (all_cons (by decide) (all_append (by decide)
      (all_append (fun c hc => goodId_pathPlain c (hgood c hc)) (by decide))))
  have hq : ('/' :: ("file/d/".data ++ (id.data ++ "/view".data))).drop
      (('/' :: ("file/d/".data ++ (id.data ++ "/view".data))).length + 1) = [] :=
    List.drop_eq_nil_of_le (Nat.le_succ _)
  have hparse : parseUrl ("https://drive.google.com/file/d/" ++ id ++ "/view") =
      some ⟨"https", String.mk ("drive.google.com".data.map Char.toLower),
        String.mk ('/' :: ("file/d/".data ++ (id.data ++ "/view".data))), ""⟩ := by
    rw [parseUrl_eq hsplit,
      parseAfterScheme_eq "https".data
        ("drive.google.com/file/d/".data ++ (id.data ++ "/view".data))
        ("drive.google.com/file/d/".data ++ (id.data ++ "/view".data))
        "drive.google.com".data
        ('/' :: ("file/d/".data ++ (id.data ++ "/view".data)))
        ('/' :: ("file/d/".data ++ (id.data ++ "/view".data)))
        ('/' :: ("file/d/".data ++ (id.data ++ "/view".data)))
        [] rfl hnf hh rfl hdrop hp hpe hq]
  have hlow : "drive.google.com".data.map Char.toLower = "drive.google.com".data := by
    decide
  rw [hlow] at hparse
  have hmatch : matchDSeg (String.mk
      ('/' :: ("file/d/".data ++ (id.data ++ "/view".data)))).data = some id.data :=
    matchDSeg_capture id.data "view".data hne
      (fun c hc => goodId_ne_char c '/' (hgood c hc) (by decide))
  rw [normalize_path_case _
      ⟨"https", String.mk "drive.google.com".data,
        String.mk ('/' :: ("file/d/".data ++ (id.data ++ "/view".data))), ""⟩
      id.data hparse
      (by decide : containsSub "drive.google.com".data "drive.google.com".data = true)
      hmatch]

/-- The /open?id=(id) share link resolves to the direct-view URL. -/
theorem normalize_pattern2 (id : String) (hne : id.data.isEmpty = false)
    (hgood : ∀ c ∈ id.data, goodIdChar c = true) :
    normalizeImageUrl ("https://drive.google.com/open?id=" ++ id) =
      "https://drive.google.com/uc?export=view&id=" ++ id := by
  have hsplit : splitScheme ("https://drive.google.com/open?id=" ++ id).data =
      some ("https".data, "drive.google.com/open?id=".data ++ id.data) :=
    splitScheme_https _
  have hnf : ("drive.google.com/open?id=".data ++ id.data).takeWhile
      (fun c => c != '#') = "drive.google.com/open?id=".data ++ id.data :=
    takeWhile_eq_self_of_all _ (all_append (by decide)
      (fun c hc => goodId_ne_char c '#' (hgood c hc) (by decide)))
  have hh : ("drive.google.com/open?id=".data ++ id.data).takeWhile
      (fun c => !(c == '/' || c == '?')) = "drive.google.com".data :=
    takeWhile_stop _ "drive.google.com".data '/'
      ("open?id=".data ++ id.data) (by decide) (by decide)
  have hdrop : ("drive.google.com/open?id=".data ++ id.data).drop
      ("drive.google.com".data).length = '/' :: ("open?id=".data ++ id.data) :=
    List.drop_left "drive.google.com".data ('/' :: ("open?id=".data ++ id.data))
  have hp : ('/' :: ("open?id=".data ++ id.data)).takeWhile (fun c => c != '?') =
      "/open".data :=
    takeWhile_stop _ "/open".data '?' ("id=".data ++ id.data)
      (by decide) (by decide)
  have hpe : (if ("/open".data).isEmpty then ['/'] else pathEncode "/open".data) =
      "/open".data := by decide
  have hq : ('/' :: ("open?id=".data ++ id.data)).drop (("/open".data).length + 1) =
      'i' :: 'd' :: '=' :: id.data :=
    drop_prefix_len "/open?".data ('i' :: 'd' :: '=' :: id.data)
      (("/open".data).length + 1) (by decide)
  have hparse : parseUrl ("https://drive.google.com/open?id=" ++ id) =
      some ⟨"https", String.mk ("drive.google.com".data.map Char.toLower),
        String.mk "/open".data, String.mk ('i' :: 'd' :: '=' :: id.data)⟩ := by
    rw [parseUrl_eq hsplit,
      parseAfterScheme_eq "https".data
        ("drive.google.com/open?id=".data ++ id.data)
        ("drive.google.com/open?id=".data ++ id.data)
        "drive.google.com".data
        ('/' :: ("open?id=".data ++ id.data))
        "/open".data
        "/open".data
        ('i' :: 'd' :: '=' :: id.data) rfl hnf hh rfl hdrop hp hpe hq]
  have hlow : "drive.google.com".data.map Char.toLower = "drive.google.com".data := by
    decide
  rw [hlow] at hparse
  have hfd : formDecode id.data = id.data :=
    formDecode_eq_self id.data (fun c hc => goodId_formPlain c (hgood c hc))
  have hmatch : matchDSeg (String.mk "/open".data).data = none := by decide
  have hqp : getSearchParam (String.mk ('i' :: 'd' :: '=' :: id.data)).data ['i', 'd'] =
      some id.data := by
    have h1 := getParam_id_only id.data
      (fun c hc => goodId_ne_char c '&' (hgood c hc) (by decide))
    rw [hfd] at h1
    exact h1
  rw [normalize_query_case _
      ⟨"https", String.mk "drive.google.com".data, String.mk "/open".data,
        String.mk ('i' :: 'd' :: '=' :: id.data)⟩
      id.data hparse
      (by decide : containsSub "drive.google.com".data "drive.google.com".data = true)
      hmatch hqp hne]

/-- The /uc?export=download share link resolves to the direct-view URL. -/
theorem normalize_pattern3 (id : String) (hne : id.data.isEmpty = false)
    (hgood : ∀ c ∈ id.data, goodIdChar c = true) :
    normalizeImageUrl ("https://drive.google.com/uc?export=download&id=" ++ id) =
      "https://drive.google.com/uc?export=view&id=" ++ id := by
  have hsplit : splitScheme
      ("https://drive.google.com/uc?export=download&id=" ++ id).data =
      some ("https".data, "drive.google.com/uc?export=download&id=".data ++ id.data) :=
    splitScheme_https _
  have hnf : ("drive.google.com/uc?export=download&id=".data ++ id.data).takeWhile
      (fun c => c != '#') = "drive.google.com/uc?export=download&id=".data ++ id.data :=
    takeWhile_eq_self_of_all _ (all_append (by decide)
      (fun c hc => goodId_ne_char c '#' (hgood c hc) (by decide)))
  have hh : ("drive.google.com/uc?export=download&id=".data ++ id.data).takeWhile
      (fun c => !(c == '/' || c == '?')) = "drive.google.com".data :=
    takeWhile_stop _ "drive.google.com".data '/'
      ("uc?export=download&id=".data ++ id.data) (by decide) (by decide)
  have hdrop : ("drive.google.com/uc?export=download&id=".data ++ id.data).drop
      ("drive.google.com".data).length =
      '/' :: ("uc?export=download&id=".data ++ id.data) :=
    List.drop_left "drive.google.com".data
      ('/' :: ("uc?export=download&id=".data ++ id.data))
  have hp : ('/' :: ("uc?export=download&id=".data ++ id.data)).takeWhile
      (fun c => c != '?') = "/uc".data :=
    takeWhile_stop _ "/uc".data '?' ("export=download&id=".data ++ id.data)
      (by decide) (by decide)
  have hpe : (if ("/uc".data).isEmpty then ['/'] else pathEncode "/uc".data) =
      "/uc".data := by decide
  have hq : ('/' :: ("uc?export=download&id=".data ++ id.data)).drop
      (("/uc".data).length + 1) =
      "export=download".data ++ '&' :: 'i' :: 'd' :: '=' :: id.data :=
    drop_prefix_len "/uc?".data
      ("export=download".data ++ '&' :: 'i' :: 'd' :: '=' :: id.data)
      (("/uc".data).length + 1) (by decide)
  have hparse : parseUrl ("https://drive.google.com/uc?export=download&id=" ++ id) =
      some ⟨"https", String.mk ("drive.google.com".data.map Char.toLower),
        String.mk "/uc".data,
        String.mk ("export=download".data ++ '&' :: 'i' :: 'd' :: '=' :: id.data)⟩ := by
    rw [parseUrl_eq hsplit,
      parseAfterScheme_eq "https".data
        ("drive.google.com/uc?export=download&id=".data ++ id.data)
        ("drive.google.com/uc?export=download&id=".data ++ id.data)
        "drive.google.com".data
        ('/' :: ("uc?export=download&id=".data ++ id.data))
        "/uc".data
        "/uc".data
        ("export=download".data ++ '&' :: 'i' :: 'd' :: '=' :: id.data)
        rfl hnf hh rfl hdrop hp hpe hq]
  have hlow : "drive.google.com".data.map Char.toLower = "drive.google.com".data := by
    decide
  rw [hlow] at hparse
  have hfd : formDecode id.data = id.data :=
    formDecode_eq_self id.data (fun c hc => goodId_formPlain c (hgood c hc))
  have hmatch : matchDSeg (String.mk "/uc".data).data = none := by decide
  have hqp : getSearchParam (String.mk
      ("export=download".data ++ '&' :: 'i' :: 'd' :: '=' :: id.data)).data ['i', 'd'] =
      some id.data := by
    have h1 := getParam_export_id id.data
      (fun c hc => goodId_ne_char c '&' (hgood c hc) (by decide))
    rw [hfd] at h1
    exact h1
  rw [normalize_query_case _
      ⟨"https", String.mk "drive.google.com".data, String.mk "/uc".data,
        String.mk ("export=download".data ++ '&' :: 'i' :: 'd' :: '=' :: id.data)⟩
      id.data hparse
      (by decide : containsSub "drive.google.com".data "drive.google.com".data = true)
      hmatch hqp hne]

/-- C7 counterexample: the three patterns do not agree on every file id.
URLSearchParams form-decodes the query, so a plus inside the id reaches
the rewritten URL as a space from the query pattern, while the path
pattern hands it through verbatim — the direct-view URL is not the same
regardless of the input pattern. -/
theorem normalizeImageUrl_not_pattern_independent :
    normalizeImageUrl "https://drive.google.com/uc?export=download&id=a+b" ≠
      normalizeImageUrl "https://drive.google.com/file/d/a+b/view" := by
  decide

/-- C7 (amended): for file ids of unreserved characters (and not a dot
segment) — the ids on which percent encoding, form decoding and the path
parser are all inert, and the only ones Drive issues — the three
recognized share-link patterns normalize to the same direct-view URL; a
parsed URL whose hostname, made of plain host characters, does not
contain drive.google.com is returned unchanged; a URL with no colon at
all, on which new URL necessarily throws and the catch returns the
input, is returned unchanged.  The function is total, so it never
throws.  Outside that id alphabet the patterns can disagree, as the
counterexample shows. -/
theorem normalizeImageUrl_spec :
    (∀ id : String, id ≠ "" → id ≠ "." → id ≠ ".." →
      id.data.all goodIdChar = true →
      normalizeImageUrl ("https://drive.google.com/file/d/" ++ id ++ "/view") =
        "https://drive.google.com/uc?export=view&id=" ++ id ∧
      normalizeImageUrl ("https://drive.google.com/open?id=" ++ id) =
        "https://drive.google.com/uc?export=view&id=" ++ id ∧
      normalizeImageUrl ("https://drive.google.com/uc?export=download&id=" ++ id) =
        "https://drive.google.com/uc?export=view&id=" ++ id) ∧
    (∀ url : String, ∀ u : UrlParts, parseUrl url = some u →
      u.hostname.data.all plainHostChar = true →
      containsSub u.hostname.data "drive.google.com".data = false →
      normalizeImageUrl url = url) ∧
    (∀ url : String, url.data.contains ':' = false → normalizeImageUrl url = url) := by
  refine ⟨?_, ?_, ?_⟩
  · intro id hne hd1 hd2 hgood
    have hne' : id.data.isEmpty = false := by
      rcases hd : id.data with _ | ⟨c, l⟩
      · exact absurd (String.ext hd) hne
      · rfl
    have hgood' : ∀ c ∈ id.data, goodIdChar c = true := List.all_eq_true.mp hgood
    exact ⟨normalize_pattern1 id hne' hgood', normalize_pattern2 id hne' hgood',
      normalize_pattern3 id hne' hgood'⟩
  · intro url u hp _ hhost
    exact normalize_unrecognized url u hp hhost
  · intro url hc
    refine normalize_malformed url ?_
    unfold parseUrl
    rw [splitScheme_none_of_no_colon url.data hc]

/-- Witness for C7 at the file id abc123. -/
theorem normalizeImageUrl_spec_witness :
    ("abc123" ≠ "" ∧ "abc123" ≠ "." ∧ "abc123" ≠ ".." ∧
      "abc123".data.all goodIdChar = true) ∧
    normalizeImageUrl ("https://drive.google.com/open?id=" ++ "abc123") =
      "https://drive.google.com/uc?export=view&id=" ++ "abc123" :=
  ⟨⟨by decide, by decide, by decide, by decide⟩,
    (normalizeImageUrl_spec.1 "abc123" (by decide) (by decide) (by decide)
      (by decide)).2.1⟩

end MailServer
